import Mathlib

/-!
# CurvesConstruction: the yield-curve container and its calibration routine

A shallow embedding of `src/cpp/YieldCurve.cpp` and of the parts of
`src/cpp/math.hpp` it relies on.

Conventions of the embedding.

* `double` and `float` values are read over exact rational arithmetic (`ℚ`);
  a `double` that the source initialises to `NAN` to mean "absent" is an
  `Option ℚ` holding `none`.
* `unsigned` values are natural numbers, reduced modulo `2 ^ 32` at the one
  place where the source narrows a wider product into an `unsigned`.
* `std::map<float, std::shared_ptr<Instrument>>` is the in-order list of its
  entries; the container keeps the keys strictly increasing (`KeysSorted`).
* A member function that mutates `*this` and may throw is a function from the
  state before the call to an `Outcome`: what was returned or thrown, together
  with the state the object is left in.
* The instrument classes, the interpolation module and the minimizer are not
  part of the sources at hand. They enter as parameters (`Collaborators`,
  and a `minimize` yielding a `math.Minimization`), so every theorem holds for
  all of them.
-/

namespace CurvesConstruction

/-! ## Exceptions -/

/-- The exceptions `YieldCurve.cpp` throws (`std::invalid_argument`,
`std::runtime_error`, `std::logic_error`), and `EvaluationError` for an
exception that escapes from the interpolation module or from an instrument. -/
inductive Error where
  | invalid_argument (what : String)
  | runtime_error (what : String)
  | logic_error (what : String)
  | EvaluationError (what : String)
  deriving DecidableEq, Repr

/-! ## `math.hpp` -/

namespace math

/-- The struct `math::Parameter`. The constructor's defaults are `NAN`; `min` and
`max` left at `NAN` mean "no bound". -/
structure Parameter where
  value : ℚ
  error : ℚ
  min : Option ℚ := none
  max : Option ℚ := none
  deriving DecidableEq, Repr

/-- The struct `math::Options`; the field defaults are those of its constructor
`Options (void) : eps_abs(1e-6), eps_rel(1e-5), limit(10000), iters(100)`.
The fields `limit` and `iters` are `std::optional <unsigned>`: the values they
can hold are those of `Options.InRange`. -/
structure Options where
  eps_abs : Option ℚ := some (1 / 1000000)
  eps_rel : Option ℚ := some (1 / 100000)
  limit : Option ℕ := some 10000
  iters : Option ℕ := some 100
  deriving DecidableEq, Repr

/-- The range of the `unsigned` fields of `math::Options`: a value that is
present is below `2 ^ 32`. -/
def Options.InRange (o : Options) : Prop :=
  o.limit.getD 0 < 2 ^ 32 ∧ o.iters.getD 0 < 2 ^ 32

instance (o : Options) : Decidable o.InRange := by
  unfold Options.InRange; infer_instance

/-- The struct `math::Result`. -/
structure Result where
  value : Option ℚ := none
  error : Option ℚ := none
  calls : Option ℕ := none
  code : Option ℤ := none
  x : List Parameter := []
  error_text : Option String := none
  deriving DecidableEq, Repr

/-- The member `Result::IsGood`: `return !error_text;`. -/
def Result.IsGood (r : Result) : Bool := r.error_text.isNone

/-- The member `Result::GetError`: `return error_text.value_or("");`. -/
def Result.GetError (r : Result) : String := r.error_text.getD ""

/-- The body of the loop of `linspace`,
`v[i] = min + (max-min)* i/double(n-1);`, on a vector whose unset entries are
`NAN` (`none`). -/
def linspace.body (n : ℕ) (min max : ℚ) (v : List (Option ℚ)) (i : ℕ) : List (Option ℚ) :=
  v.set i (some (min + (max - min) * (i : ℚ) / ((n - 1 : ℕ) : ℚ)))

/-- The function `math::linspace (unsigned n, double min, double max)`.
The default branch fills `v(n, NAN)`: entry `0`, then the entries
`1 ≤ i < n-1` in a loop, then entry `n-1`. -/
def linspace (n : ℕ) (min max : ℚ) : Except Error (List (Option ℚ)) :=
  match n with
  | 0 => .ok []
  | 1 => if min = max then .ok [some min]
         else .error (.invalid_argument "linspace: n=1 and min!=max")
  | n =>
    let v : List (Option ℚ) := List.replicate n none
    let v := v.set 0 (some min)
    let v := (List.range' 1 (n - 1 - 1)).foldl (linspace.body n min max) v
    let v := v.set (n - 1) (some max)
    .ok v

end math

/-! ## Collaborators that are not part of the sources -/

/-- Modelled from the spec: the scheme tag `math::Interpolator1D::Type`, declared
in the absent `Interpolation.hpp`. `YieldCurve.cpp` names only
`PiecewiseConstant`; the other tags are the families of §4.4. -/
inductive InterpolatorType where
  | PiecewiseConstant
  | Linear
  | CubicSpline
  | Akima
  | Steffen
  deriving DecidableEq, Repr

/-- What `YieldCurve.cpp` calls on an `Instrument` (a class with virtual
members `GetMaturity`, `Value`, `Eval`, `AddToCurve`, `Clone`) and on
`math::Interpolator1D` (of state type `Interp`).

* `Eval` and the constructor `Interpolator1D (vx,vy,itype)` either return or
  throw (the text of the exception).
* `AddToCurve` mutates the curve it is given and may throw: it yields the
  interpolator it leaves behind and the exception, if any.
* `Clone` is a value copy, the identity here. -/
structure Collaborators (I Interp : Type) where
  GetMaturity : I → ℚ
  Value : I → ℚ
  Eval : I → Interp → Except String ℚ
  AddToCurve : I → Interp → Interp × Option String
  /-- The default constructor `math::Interpolator1D ()`. -/
  Interpolator1D₀ : Interp
  /-- The constructor `math::Interpolator1D (vx,vy,itype)`. -/
  Interpolator1D : List ℚ → List ℚ → InterpolatorType → Except String Interp

/-! ## The container -/

/-- The statement `instruments[k].reset(v)` on the in-order entries of the map: `operator[]`
walks to the node whose key is equivalent to `k` (neither `k < k'` nor
`k' < k`), inserting a node in key order when there is none, and `reset` makes
that node own `v`. -/
def assign {I : Type} (k : ℚ) (v : I) : List (ℚ × I) → List (ℚ × I)
  | [] => [(k, v)]
  | (k', v') :: rest =>
    if k < k' then (k, v) :: (k', v') :: rest
    else if k' < k then (k', v') :: assign k v rest
    else (k', v) :: rest

/-- The instrument a list of entries holds at key `k` (`std::map::find`). -/
def find? {I : Type} (k : ℚ) : List (ℚ × I) → Option I
  | [] => none
  | (k', v) :: rest => if k' = k then some v else find? k rest

/-- The class `YieldCurve`: its base sub-object `math::Interpolator1D` (the
interpolant state, replaced by `*this = Interpolator1D (...)`) and its member
`instruments`. -/
structure YieldCurve (I Interp : Type) where
  interpolator : Interp
  instruments : List (ℚ × I)

/-- The invariant of `std::map`: keys strictly increasing in iteration order. -/
def KeysSorted {I : Type} (m : List (ℚ × I)) : Prop :=
  (m.map Prod.fst).Pairwise (· < ·)

instance {I : Type} (m : List (ℚ × I)) : Decidable (KeysSorted m) := by
  unfold KeysSorted; infer_instance

/-- The member `YieldCurve::Add`: `instruments[x.GetMaturity()].reset(x.Clone()); return *this;`. -/
def YieldCurve.Add {I Interp : Type} (M : Collaborators I Interp)
    (c : YieldCurve I Interp) (x : I) : YieldCurve I Interp :=
  { c with instruments := assign (M.GetMaturity x) x c.instruments }

/-! ## The minimizer, as `Build` sees it -/

namespace math

/-- A run of `math::minimize (func, pars, opts)` (declared in the absent
`minimizer.hpp`) as its caller observes it: the minimizer either asks for the
objective at a trial vector and continues according to the number it gets back,
or returns its `Result`. Every run is finite, and a deterministic minimizer is
a function from `(pars, opts)` to such a run. -/
inductive Minimization where
  | eval (vy : List ℚ) (next : ℚ → Minimization)
  | ret (r : Result)

/-- Runs a minimization against an objective `func` that acts on a state `S`
and may throw. Yields the minimizer's `Result`, or the exception that left the
objective and unwound the minimizer; the state afterwards; and the trial
vectors at which the objective was called, in order. -/
def Minimization.run {S : Type} (func : List ℚ → S → Except String ℚ × S) :
    Minimization → S → Except String Result × S × List (List ℚ)
  | .ret r, s => (.ok r, s, [])
  | .eval vy next, s =>
    match func vy s with
    | (.error e, s') => (.error e, s', [vy])
    | (.ok v, s') =>
      match run func (next v) s' with
      | (out, s'', ys) => (out, s'', vy :: ys)

end math

/-! ## `YieldCurve.cpp` -/

/-- A call that `Build` makes into the minimizer (with the arguments passed), or
that the minimizer makes into the objective (with the trial vector).
`Outcome.calls` records them in the order made; this record is not a variable
of the source, it makes "was called" and "was called with" statable. -/
inductive Call where
  | minimize (pars : List math.Parameter) (opts : math.Options)
  | func (vy : List ℚ)
  deriving DecidableEq, Repr

/-- How a member function that returns `*this` ends: `thrown` is the exception
that left it (`none` when it returned), `curve` is the object afterwards, and
`calls` is the record of the calls made on the way. -/
structure Outcome (I Interp : Type) where
  thrown : Option Error
  curve : YieldCurve I Interp
  calls : List Call

/-- The loop of `BuildPiecewiseConstant`: `it->second->AddToCurve(*this)` for
every entry, in key order, stopping at the first exception. -/
def BuildPiecewiseConstant.loop {I Interp : Type} (M : Collaborators I Interp) :
    List (ℚ × I) → Interp → Interp × Option String
  | [], s => (s, none)
  | (_, instr) :: rest, s =>
    match M.AddToCurve instr s with
    | (s', some e) => (s', some e)
    | (s', none) => loop M rest s'

/-- The member `YieldCurve::BuildPiecewiseConstant`: `*this = math::Interpolator1D();`
followed by the loop. -/
def YieldCurve.BuildPiecewiseConstant {I Interp : Type} (M : Collaborators I Interp)
    (c : YieldCurve I Interp) : Outcome I Interp :=
  match BuildPiecewiseConstant.loop M c.instruments M.Interpolator1D₀ with
  | (s, some e) => ⟨some (.EvaluationError e), { c with interpolator := s }, []⟩
  | (s, none) => ⟨none, { c with interpolator := s }, []⟩

/-- The grid loop of `Build`, started as `grid instruments [0]`
(`std::vector<double> vx {0};`): `if(t>0) vx.push_back(t); else throw
std::invalid_argument(...)` for every key `t`, in key order. -/
def grid {I : Type} : List (ℚ × I) → List ℚ → Except Error (List ℚ)
  | [], vx => .ok vx
  | (t, _) :: rest, vx =>
    if t > 0 then grid rest (vx ++ [t])
    else .error (.invalid_argument "YieldCurve::Build: instrument maturity must be >1")

/-- The loop of the lambda `func`, started with `result = 0`:
`result += std::pow( it->second->Value()-it->second->Eval(*this), 2 )` for
every entry, in key order; an exception of `Eval` leaves the loop. -/
def func.loop {I Interp : Type} (M : Collaborators I Interp) (self : Interp) :
    List (ℚ × I) → ℚ → Except String ℚ
  | [], result => .ok result
  | (_, instr) :: rest, result =>
    match M.Eval instr self with
    | .error e => .error e
    | .ok v => loop M self rest (result + (M.Value instr - v) ^ 2)

/-- The lambda `func` of `Build`, which captures `vx`, `itype` and `this` by
reference. `self` is the interpolator sub-object of `*this` when the lambda is
entered; the second component is that sub-object when it is left.
`*this = Interpolator1D (vx,vy,itype);` assigns once the constructor has
returned, so a constructor that throws leaves `self` as it was. -/
def func {I Interp : Type} (M : Collaborators I Interp) (vx : List ℚ)
    (itype : InterpolatorType) (instruments : List (ℚ × I))
    (_vy : List ℚ) (self : Interp) : Except String ℚ × Interp :=
  let vy := _vy
  match M.Interpolator1D vx vy itype with
  | .error e => (.error e, self)
  | .ok trial => (func.loop M trial instruments 0, trial)

/-- The member `YieldCurve::Build (itype, opts)`. -/
def YieldCurve.Build {I Interp : Type} (M : Collaborators I Interp)
    (minimize : List math.Parameter → math.Options → math.Minimization)
    (c : YieldCurve I Interp) (itype : InterpolatorType) (opts : math.Options) :
    Outcome I Interp :=
  if itype = .PiecewiseConstant then c.BuildPiecewiseConstant M
  else
    match grid c.instruments [0] with
    | .error e => ⟨some e, c, []⟩
    | .ok vx =>
      let pars : List math.Parameter := List.replicate vx.length ⟨0, 1 / 100, none, none⟩
      match (minimize pars opts).run (func M vx itype c.instruments) c.interpolator with
      | (.error e, s, ys) =>
        ⟨some (.EvaluationError e), { c with interpolator := s },
          .minimize pars opts :: ys.map .func⟩
      | (.ok r, s, ys) =>
        if !r.IsGood then
          ⟨some (.runtime_error r.GetError), { c with interpolator := s },
            .minimize pars opts :: ys.map .func⟩
        else
          let vy := r.x.map (·.value)
          if vx.length ≠ vy.length then
            ⟨some (.logic_error "YieldCurve::Build: internal error"),
              { c with interpolator := s }, .minimize pars opts :: ys.map .func⟩
          else
            match M.Interpolator1D vx vy itype with
            | .error e =>
              ⟨some (.EvaluationError e), { c with interpolator := s },
                .minimize pars opts :: ys.map .func⟩
            | .ok built =>
              ⟨none, { c with interpolator := built }, .minimize pars opts :: ys.map .func⟩

/-- The member `YieldCurve::Build (itype)`. `instruments.size()*1000` is computed
in `size_t` and stored into the `std::optional <unsigned>` field `iters`, which
keeps it modulo `2 ^ 32`. -/
def YieldCurve.Build₁ {I Interp : Type} (M : Collaborators I Interp)
    (minimize : List math.Parameter → math.Options → math.Minimization)
    (c : YieldCurve I Interp) (itype : InterpolatorType) : Outcome I Interp :=
  let opts : math.Options := {}
  let opts := { opts with eps_abs := some (1 / 100000) }
  let opts := { opts with eps_rel := some (1 / 100000) }
  let opts := { opts with iters := some ((1000 + c.instruments.length * 1000) % 2 ^ 32) }
  c.Build M minimize itype opts

/-! ## Stand-ins for the collaborators

The theorems below hold for every instrument class, interpolation module and
minimizer. To run `Add` and `Build` on concrete curves, this section fixes one
simple choice of each; nothing is claimed about the real ones. -/

/-- A stand-in instrument: a maturity and a market quote. -/
structure Quote where
  maturity : ℚ
  value : ℚ
  deriving DecidableEq, Repr

/-- A stand-in interpolator state: the nodes and the scheme it was built from. -/
structure Nodes where
  x : List ℚ
  y : List ℚ
  itype : InterpolatorType
  deriving DecidableEq, Repr

/-- Stand-in collaborators. An interpolator is `none` after the default
constructor, and otherwise holds the nodes given to it (the constructor throws
when the two vectors differ in length). A quote evaluates to the node value
stored at its maturity, and throws when there is no such node; its
`AddToCurve` appends the node `(maturity, value)`. -/
def standIn : Collaborators Quote (Option Nodes) where
  GetMaturity := Quote.maturity
  Value := Quote.value
  Eval q s :=
    match s with
    | none => .error "interpolator is empty"
    | some nd =>
      match find? q.maturity (nd.x.zip nd.y) with
      | none => .error "no node at the maturity"
      | some v => .ok v
  AddToCurve q s :=
    match s with
    | none => (some ⟨[q.maturity], [q.value], .PiecewiseConstant⟩, none)
    | some nd => (some ⟨nd.x ++ [q.maturity], nd.y ++ [q.value], nd.itype⟩, none)
  Interpolator1D₀ := none
  Interpolator1D vx vy itype :=
    if vx.length = vy.length then .ok (some ⟨vx, vy, itype⟩) else .error "x and y differ in size"

/-- A stand-in minimizer: it evaluates the objective once, at the initial
values, and accepts them when the objective is within `eps_abs` of zero;
otherwise it reports failure. -/
def probe (pars : List math.Parameter) (opts : math.Options) : math.Minimization :=
  .eval (pars.map (·.value)) fun v =>
    if v ≤ opts.eps_abs.getD 0 then .ret { value := some v, x := pars }
    else .ret { value := some v, x := pars, error_text := some "iteration limit reached" }

/-- A freshly constructed `YieldCurve` over the stand-ins. -/
def fresh : YieldCurve Quote (Option Nodes) := ⟨none, []⟩

/-- A curve over the stand-ins filled by 4294967 calls of `Add`, with the
maturities 1, 2, ..., 4294967. -/
@[irreducible]
def crowded : YieldCurve Quote (Option Nodes) :=
  ((List.range 4294967).map fun i : ℕ => (⟨(i : ℚ) + 1, 0⟩ : Quote)).foldl
    (YieldCurve.Add standIn) fresh

/-! ## Facts about the container -/

theorem mem_keys_assign {I : Type} (k : ℚ) (v : I) (m : List (ℚ × I)) (a : ℚ) :
    a ∈ (assign k v m).map Prod.fst ↔ a = k ∨ a ∈ m.map Prod.fst := by
  induction m with
  | nil => simp [assign]
  | cons p rest ih =>
    obtain ⟨k', v'⟩ := p
    unfold assign
    split_ifs with h1 h2
    · simp
    · simp only [List.map_cons, List.mem_cons, ih]; tauto
    · have hk : k = k' := le_antisymm (not_lt.mp h2) (not_lt.mp h1)
      subst hk; simp

theorem keysSorted_assign {I : Type} (k : ℚ) (v : I) (m : List (ℚ × I))
    (hm : KeysSorted m) : KeysSorted (assign k v m) := by
  induction m with
  | nil => simp [assign, KeysSorted]
  | cons p rest ih =>
    obtain ⟨k', v'⟩ := p
    have hm' : (∀ a ∈ rest.map Prod.fst, k' < a) ∧ KeysSorted rest := by
      simpa [KeysSorted] using hm
    unfold assign
    split_ifs with h1 h2
    · have : ∀ a ∈ rest.map Prod.fst, k < a := fun a ha => lt_trans h1 (hm'.1 a ha)
      simp only [KeysSorted, List.map_cons, List.pairwise_cons, List.mem_cons]
      refine ⟨?_, hm'.1, hm'.2⟩
      rintro a (rfl | ha)
      · exact h1
      · exact this a ha
    · simp only [KeysSorted, List.map_cons, List.pairwise_cons]
      refine ⟨?_, ih hm'.2⟩
      intro a ha
      rcases (mem_keys_assign k v rest a).1 ha with rfl | ha
      · exact h2
      · exact hm'.1 a ha
    · simpa [KeysSorted] using hm

theorem find?_assign_self {I : Type} (k : ℚ) (v : I) (m : List (ℚ × I)) :
    find? k (assign k v m) = some v := by
  induction m with
  | nil => simp [assign, find?]
  | cons p rest ih =>
    obtain ⟨k', v'⟩ := p
    unfold assign
    split_ifs with h1 h2
    · simp [find?]
    · simp [find?, ne_of_lt h2, ih]
    · have hk : k' = k := le_antisymm (not_lt.mp h1) (not_lt.mp h2)
      simp [find?, hk]

theorem find?_assign_of_ne {I : Type} (k : ℚ) (v : I) (m : List (ℚ × I)) (a : ℚ)
    (ha : a ≠ k) : find? a (assign k v m) = find? a m := by
  induction m with
  | nil => simp [assign, find?, Ne.symm ha]
  | cons p rest ih =>
    obtain ⟨k', v'⟩ := p
    unfold assign
    split_ifs with h1 h2
    · simp [find?, Ne.symm ha]
    · simp [find?, ih]
    · have hk : k' = k := le_antisymm (not_lt.mp h1) (not_lt.mp h2)
      simp [find?, hk, Ne.symm ha]

theorem find?_eq_none_iff {I : Type} (k : ℚ) (m : List (ℚ × I)) :
    find? k m = none ↔ k ∉ m.map Prod.fst := by
  induction m with
  | nil => simp [find?]
  | cons p rest ih =>
    obtain ⟨k', v'⟩ := p
    by_cases h : k' = k
    · simp [find?, h]
    · simp [find?, h, ih, Ne.symm h]

theorem length_assign {I : Type} (k : ℚ) (v : I) (m : List (ℚ × I))
    (hm : KeysSorted m) :
    (assign k v m).length = m.length + (if k ∈ m.map Prod.fst then 0 else 1) := by
  induction m with
  | nil => simp [assign]
  | cons p rest ih =>
    obtain ⟨k', v'⟩ := p
    have hm' : (∀ a ∈ rest.map Prod.fst, k' < a) ∧ KeysSorted rest := by
      simpa [KeysSorted] using hm
    by_cases h1 : k < k'
    · have hnot : k ∉ rest.map Prod.fst := fun h =>
        absurd (lt_trans (hm'.1 k h) h1) (lt_irrefl _)
      have hnot' : ¬ (k = k' ∨ k ∈ rest.map Prod.fst) := by
        rintro (h | h)
        · exact absurd h (ne_of_lt h1)
        · exact hnot h
      simp only [assign, h1, if_true, List.length_cons, List.map_cons, List.mem_cons, hnot',
        if_false]
    · by_cases h2 : k' < k
      · have hiff : (k = k' ∨ k ∈ rest.map Prod.fst) ↔ k ∈ rest.map Prod.fst :=
          ⟨fun h => h.resolve_left (ne_of_gt h2), Or.inr⟩
        simp only [assign, h1, h2, if_true, if_false, List.length_cons, List.map_cons,
          List.mem_cons, hiff, ih hm'.2]
        omega
      · have hk : k = k' := le_antisymm (not_lt.mp h2) (not_lt.mp h1)
        simp [assign, hk]

theorem assign_assign_same {I : Type} (k : ℚ) (a b : I) (m : List (ℚ × I)) :
    assign k b (assign k a m) = assign k b m := by
  induction m with
  | nil => simp [assign]
  | cons p rest ih =>
    obtain ⟨k', v'⟩ := p
    by_cases h1 : k < k'
    · simp [assign, h1]
    · by_cases h2 : k' < k
      · simp [assign, h1, h2, ih]
      · simp [assign, h1, h2]


/-! ## Facts about sequences of `Add` -/

theorem foldl_Add_interpolator {I Interp : Type} (M : Collaborators I Interp) (xs : List I)
    (c : YieldCurve I Interp) :
    (xs.foldl (YieldCurve.Add M) c).interpolator = c.interpolator := by
  induction xs generalizing c with
  | nil => rfl
  | cons x xs ih => simp only [List.foldl_cons, ih]; rfl

theorem foldl_Add_keysSorted {I Interp : Type} (M : Collaborators I Interp) (xs : List I)
    (c : YieldCurve I Interp) (hc : KeysSorted c.instruments) :
    KeysSorted (xs.foldl (YieldCurve.Add M) c).instruments := by
  induction xs generalizing c with
  | nil => exact hc
  | cons x xs ih =>
    simp only [List.foldl_cons]
    exact ih _ (keysSorted_assign _ _ _ hc)

theorem mem_keys_foldl_Add {I Interp : Type} (M : Collaborators I Interp) (xs : List I)
    (c : YieldCurve I Interp) (a : ℚ) :
    a ∈ (xs.foldl (YieldCurve.Add M) c).instruments.map Prod.fst ↔
      a ∈ xs.map M.GetMaturity ∨ a ∈ c.instruments.map Prod.fst := by
  induction xs generalizing c with
  | nil => simp
  | cons x xs ih =>
    simp only [List.foldl_cons, ih, YieldCurve.Add, mem_keys_assign, List.map_cons,
      List.mem_cons]
    tauto

/-- The keys of a curve filled by `Add` from an empty one are the distinct
maturities added, in increasing order. -/
theorem keys_foldl_Add {I Interp : Type} (M : Collaborators I Interp) (xs : List I)
    (i₀ : Interp) :
    (xs.foldl (YieldCurve.Add M) ⟨i₀, []⟩).instruments.map Prod.fst =
      (xs.map M.GetMaturity).toFinset.sort (· ≤ ·) := by
  have hs : KeysSorted (xs.foldl (YieldCurve.Add M) ⟨i₀, []⟩).instruments :=
    foldl_Add_keysSorted M xs _ (by simp [KeysSorted])
  have hlt : ((xs.foldl (YieldCurve.Add M) ⟨i₀, []⟩).instruments.map Prod.fst).Sorted (· < ·) := hs
  have hfin : ((xs.foldl (YieldCurve.Add M) ⟨i₀, []⟩).instruments.map Prod.fst).toFinset =
      (xs.map M.GetMaturity).toFinset := by
    ext a
    simp only [List.mem_toFinset, mem_keys_foldl_Add]
    simp
  rw [← hfin]
  exact ((List.toFinset_sort (· ≤ ·) hlt.nodup).2 hlt.le_of_lt).symm

/-! ## Facts about the grid loop -/

theorem grid_ok {I : Type} (m : List (ℚ × I)) (vx : List ℚ)
    (h : ∀ p ∈ m, 0 < p.1) : grid m vx = .ok (vx ++ m.map Prod.fst) := by
  induction m generalizing vx with
  | nil => simp [grid]
  | cons p rest ih =>
    obtain ⟨t, v⟩ := p
    have ht : 0 < t := h (t, v) (List.mem_cons_self _ _)
    have hrest : ∀ p ∈ rest, 0 < p.1 := fun p hp => h p (List.mem_cons_of_mem _ hp)
    simp [grid, ht, ih _ hrest]

theorem grid_error {I : Type} (m : List (ℚ × I)) (vx : List ℚ)
    (h : ∃ p ∈ m, p.1 ≤ 0) :
    grid m vx = .error (.invalid_argument "YieldCurve::Build: instrument maturity must be >1") := by
  induction m generalizing vx with
  | nil => simp at h
  | cons p rest ih =>
    obtain ⟨t, v⟩ := p
    by_cases ht : 0 < t
    · have hrest : ∃ p ∈ rest, p.1 ≤ 0 := by
        obtain ⟨q, hq, hq0⟩ := h
        rcases List.mem_cons.1 hq with rfl | hq
        · exact absurd ht (not_lt.mpr hq0)
        · exact ⟨q, hq, hq0⟩
      simp [grid, ht, ih _ hrest]
    · simp [grid, ht]

theorem grid_cases {I : Type} (m : List (ℚ × I)) :
    (∀ p ∈ m, 0 < p.1) ∨ ∃ p ∈ m, p.1 ≤ 0 := by
  by_cases h : ∀ p ∈ m, 0 < p.1
  · exact Or.inl h
  · right
    push_neg at h
    exact h

/-! ## C1: `Add` keeps one instrument per maturity -/

/-- C1. After `Add(x)` the curve holds `x` at the maturity of `x`, holds at
every other maturity what it held before, has grown by one entry exactly when
that maturity was not present, still has strictly increasing keys and the same
interpolant; and `Add(a)` followed by `Add(b)` at the same maturity leaves the
curve that `Add(b)` alone gives, so only `b` is kept. -/
theorem Add_one_instrument_per_maturity {I Interp : Type} (M : Collaborators I Interp)
    (c : YieldCurve I Interp) (x : I) (hc : KeysSorted c.instruments) :
    find? (M.GetMaturity x) (c.Add M x).instruments = some x ∧
    (∀ k, k ≠ M.GetMaturity x → find? k (c.Add M x).instruments = find? k c.instruments) ∧
    (c.Add M x).instruments.length =
      c.instruments.length + (if (find? (M.GetMaturity x) c.instruments).isSome then 0 else 1) ∧
    KeysSorted (c.Add M x).instruments ∧
    (c.Add M x).interpolator = c.interpolator ∧
    (∀ a : I, M.GetMaturity a = M.GetMaturity x → (c.Add M a).Add M x = c.Add M x) ∧
    (∀ (a : I) (i₀ : Interp), M.GetMaturity a = M.GetMaturity x →
      ((YieldCurve.mk i₀ []).Add M a).Add M x = ⟨i₀, [(M.GetMaturity x, x)]⟩) := by
  refine ⟨find?_assign_self _ _ _, fun k hk => find?_assign_of_ne _ _ _ _ hk, ?_,
    keysSorted_assign _ _ _ hc, rfl, ?_, ?_⟩
  · show (assign _ _ _).length = _
    rw [length_assign _ _ _ hc]
    by_cases h : M.GetMaturity x ∈ c.instruments.map Prod.fst
    · have : find? (M.GetMaturity x) c.instruments ≠ none := fun h' =>
        (find?_eq_none_iff _ _).1 h' h
      simp [h, this]
    · have : find? (M.GetMaturity x) c.instruments = none := (find?_eq_none_iff _ _).2 h
      simp [h, this]
  · intro a ha
    simp only [YieldCurve.Add, ha, assign_assign_same]
  · intro a i₀ ha
    simp [YieldCurve.Add, ha, assign]

/-- C1 on the curve holding quotes at maturities 1 and 2, adding a second quote
at maturity 2. -/
theorem Add_one_instrument_per_maturity_witness :
    KeysSorted ((fresh.Add standIn ⟨1, 9 / 10⟩).Add standIn ⟨2, 8 / 10⟩).instruments ∧
    ((fresh.Add standIn ⟨1, 9 / 10⟩).Add standIn ⟨2, 8 / 10⟩).Add standIn ⟨2, 7 / 10⟩ =
      ⟨none, [(1, ⟨1, 9 / 10⟩), (2, ⟨2, 7 / 10⟩)]⟩ ∧
    find? 2 (((fresh.Add standIn ⟨1, 9 / 10⟩).Add standIn ⟨2, 8 / 10⟩).Add standIn
      ⟨2, 7 / 10⟩).instruments = some ⟨2, 7 / 10⟩ := by
  have hs : KeysSorted ((fresh.Add standIn ⟨1, 9 / 10⟩).Add standIn ⟨2, 8 / 10⟩).instruments := by
    norm_num [KeysSorted, fresh, YieldCurve.Add, standIn, assign]
  refine ⟨hs, ?_, ?_⟩
  · norm_num [fresh, YieldCurve.Add, standIn, assign]
  · exact (Add_one_instrument_per_maturity standIn _ ⟨2, 7 / 10⟩ hs).1

/-! ## C2: the grid of `Build` -/

/-- C2. For instruments of positive maturity added in any order to an empty
curve, the grid loop of `Build` returns `0` followed by the distinct maturities
in increasing order: a strictly increasing list that starts at `0` and has one
more entry than the curve has instruments. -/
theorem Build_grid_sorted_maturities {I Interp : Type} (M : Collaborators I Interp)
    (i₀ : Interp) (xs : List I) (hpos : ∀ x ∈ xs, 0 < M.GetMaturity x) :
    grid (xs.foldl (YieldCurve.Add M) ⟨i₀, []⟩).instruments [0] =
      .ok (0 :: (xs.map M.GetMaturity).toFinset.sort (· ≤ ·)) ∧
    (0 :: (xs.map M.GetMaturity).toFinset.sort (· ≤ ·)).Sorted (· < ·) ∧
    (0 :: (xs.map M.GetMaturity).toFinset.sort (· ≤ ·)).length =
      (xs.foldl (YieldCurve.Add M) ⟨i₀, []⟩).instruments.length + 1 ∧
    (∀ ys : List I, ys.Perm xs →
      grid (ys.foldl (YieldCurve.Add M) ⟨i₀, []⟩).instruments [0] =
        grid (xs.foldl (YieldCurve.Add M) ⟨i₀, []⟩).instruments [0]) := by
  have key : ∀ zs : List I, (∀ x ∈ zs, 0 < M.GetMaturity x) →
      grid (zs.foldl (YieldCurve.Add M) ⟨i₀, []⟩).instruments [0] =
        .ok (0 :: (zs.map M.GetMaturity).toFinset.sort (· ≤ ·)) := by
    intro zs hz
    have hall : ∀ p ∈ (zs.foldl (YieldCurve.Add M) ⟨i₀, []⟩).instruments, 0 < p.1 := by
      intro p hp
      have hmem : p.1 ∈ (zs.foldl (YieldCurve.Add M) ⟨i₀, []⟩).instruments.map Prod.fst :=
        List.mem_map_of_mem _ hp
      rcases (mem_keys_foldl_Add M zs _ p.1).1 hmem with h | h
      · obtain ⟨x, hx, hxe⟩ := List.mem_map.1 h
        rw [← hxe]; exact hz x hx
      · simp at h
    rw [grid_ok _ _ hall, keys_foldl_Add]
    rfl
  refine ⟨key xs hpos, ?_, ?_, ?_⟩
  · refine List.pairwise_cons.2 ⟨?_, Finset.sort_sorted_lt _⟩
    intro a ha
    obtain ⟨x, hx, hxe⟩ := List.mem_map.1 (List.mem_toFinset.1 ((Finset.mem_sort _).1 ha))
    rw [← hxe]; exact hpos x hx
  · rw [← keys_foldl_Add M xs i₀]
    simp
  · intro ys hperm
    rw [key xs hpos, key ys (fun x hx => hpos x (hperm.subset hx))]
    have : (ys.map M.GetMaturity).toFinset = (xs.map M.GetMaturity).toFinset :=
      List.toFinset_eq_of_perm _ _ (hperm.map _)
    rw [this]

/-- C2 on the curve of the test case `zcb`: maturities 2, 1, 5 added in that
order give the grid `[0, 1, 2, 5]`. -/
theorem Build_grid_sorted_maturities_witness :
    (∀ x ∈ [(⟨2, 8 / 10⟩ : Quote), ⟨1, 9 / 10⟩, ⟨5, 6 / 10⟩], 0 < standIn.GetMaturity x) ∧
    grid ([(⟨2, 8 / 10⟩ : Quote), ⟨1, 9 / 10⟩, ⟨5, 6 / 10⟩].foldl (YieldCurve.Add standIn)
      ⟨none, []⟩).instruments [0] = .ok [0, 1, 2, 5] ∧
    (0 :: ([(⟨2, 8 / 10⟩ : Quote), ⟨1, 9 / 10⟩, ⟨5, 6 / 10⟩].map
      standIn.GetMaturity).toFinset.sort (· ≤ ·)) = [0, 1, 2, 5] := by
  have hpos : ∀ x ∈ [(⟨2, 8 / 10⟩ : Quote), ⟨1, 9 / 10⟩, ⟨5, 6 / 10⟩],
      0 < standIn.GetMaturity x := by
    intro x hx
    simp only [List.mem_cons, List.mem_singleton, List.not_mem_nil, or_false] at hx
    rcases hx with rfl | rfl | rfl <;> norm_num [standIn]
  have hgrid : grid ([(⟨2, 8 / 10⟩ : Quote), ⟨1, 9 / 10⟩, ⟨5, 6 / 10⟩].foldl
      (YieldCurve.Add standIn) ⟨none, []⟩).instruments [0] = .ok [0, 1, 2, 5] := by
    norm_num [YieldCurve.Add, standIn, assign, grid]
  have h := (Build_grid_sorted_maturities standIn none _ hpos).1
  rw [hgrid] at h
  exact ⟨hpos, hgrid, (Except.ok.inj h).symm⟩

/-! ## C3: a maturity that is not positive -/

/-- C3. For a scheme other than piecewise-constant, `Build` throws
`std::invalid_argument` exactly when some instrument of the curve has a
maturity `≤ 0`; it then has called neither the minimizer nor the objective, and
leaves the curve (interpolant and instruments) as it was. -/
theorem Build_invalid_argument_iff {I Interp : Type} (M : Collaborators I Interp)
    (minimize : List math.Parameter → math.Options → math.Minimization)
    (c : YieldCurve I Interp) (itype : InterpolatorType) (opts : math.Options)
    (hitype : itype ≠ .PiecewiseConstant) :
    ((∃ what, (c.Build M minimize itype opts).thrown = some (.invalid_argument what)) ↔
      ∃ p ∈ c.instruments, p.1 ≤ 0) ∧
    ((∃ p ∈ c.instruments, p.1 ≤ 0) →
      (c.Build M minimize itype opts).thrown =
        some (.invalid_argument "YieldCurve::Build: instrument maturity must be >1") ∧
      (c.Build M minimize itype opts).calls = [] ∧
      (c.Build M minimize itype opts).curve = c) := by
  have hbad : (∃ p ∈ c.instruments, p.1 ≤ 0) →
      c.Build M minimize itype opts =
        ⟨some (.invalid_argument "YieldCurve::Build: instrument maturity must be >1"), c, []⟩ := by
    intro h
    simp only [YieldCurve.Build, hitype, if_false, grid_error _ _ h]
  refine ⟨⟨?_, fun h => ⟨_, by rw [hbad h]⟩⟩, fun h => by rw [hbad h]; exact ⟨rfl, rfl, rfl⟩⟩
  rintro ⟨what, hw⟩
  rcases grid_cases c.instruments with hpos | hneg
  · exfalso
    simp only [YieldCurve.Build, hitype, if_false, grid_ok _ _ hpos] at hw
    split at hw
    · simp at hw
    · split_ifs at hw
      · simp at hw
      · simp at hw
      · split at hw <;> simp at hw
  · exact hneg

/-- C3 on a curve holding one quote at maturity `0`, whatever state it is in. -/
theorem Build_invalid_argument_iff_witness :
    InterpolatorType.Linear ≠ .PiecewiseConstant ∧
    (∃ p ∈ (fresh.Add standIn ⟨0, 1⟩).instruments, p.1 ≤ 0) ∧
    ((fresh.Add standIn ⟨0, 1⟩).Build standIn probe .Linear {}).thrown =
      some (.invalid_argument "YieldCurve::Build: instrument maturity must be >1") ∧
    ((fresh.Add standIn ⟨0, 1⟩).Build standIn probe .Linear {}).calls = [] ∧
    ((fresh.Add standIn ⟨0, 1⟩).Build standIn probe .Linear {}).curve =
      fresh.Add standIn ⟨0, 1⟩ := by
  have hp : ∃ p ∈ (fresh.Add standIn ⟨0, 1⟩).instruments, p.1 ≤ 0 :=
    ⟨(0, ⟨0, 1⟩), by simp [fresh, YieldCurve.Add, standIn, assign], le_refl _⟩
  exact ⟨by decide, hp,
    (Build_invalid_argument_iff standIn probe _ .Linear {} (by decide)).2 hp⟩

/-! ## Facts about the objective and about a run of the minimizer -/

theorem run_ret {S : Type} (f : List ℚ → S → Except String ℚ × S) (r : math.Result) (s : S) :
    (math.Minimization.ret r).run f s = (.ok r, s, []) := rfl

theorem run_eval_error {S : Type} (f : List ℚ → S → Except String ℚ × S) (vy : List ℚ)
    (next : ℚ → math.Minimization) (s s' : S) (e : String) (h : f vy s = (.error e, s')) :
    (math.Minimization.eval vy next).run f s = (.error e, s', [vy]) := by
  rw [math.Minimization.run, h]

theorem run_eval_ok {S : Type} (f : List ℚ → S → Except String ℚ × S) (vy : List ℚ)
    (next : ℚ → math.Minimization) (s s' : S) (v : ℚ) (h : f vy s = (.ok v, s')) :
    (math.Minimization.eval vy next).run f s =
      (((next v).run f s').1, ((next v).run f s').2.1, vy :: ((next v).run f s').2.2) := by
  rw [math.Minimization.run, h]

theorem func_of_constructor_error {I Interp : Type} (M : Collaborators I Interp)
    (vx : List ℚ) (itype : InterpolatorType) (instruments : List (ℚ × I)) (vy : List ℚ)
    (self : Interp) (e : String) (h : M.Interpolator1D vx vy itype = .error e) :
    func M vx itype instruments vy self = (.error e, self) := by
  simp [func, h]

theorem func_of_constructor_ok {I Interp : Type} (M : Collaborators I Interp)
    (vx : List ℚ) (itype : InterpolatorType) (instruments : List (ℚ × I)) (vy : List ℚ)
    (self trial : Interp) (h : M.Interpolator1D vx vy itype = .ok trial) :
    func M vx itype instruments vy self = (func.loop M trial instruments 0, trial) := by
  simp [func, h]

/-- Where a run that returns leaves the state: untouched when the objective was
never called, and otherwise at the trial interpolant of the last call. -/
theorem run_state {I Interp : Type} (M : Collaborators I Interp)
    (vx : List ℚ) (itype : InterpolatorType) (instruments : List (ℚ × I))
    (m : math.Minimization) (s : Interp) (r : math.Result) (s' : Interp) (ys : List (List ℚ))
    (h : m.run (func M vx itype instruments) s = (.ok r, s', ys)) :
    (ys = [] → s' = s) ∧
    (∀ vy, ys.getLast? = some vy → M.Interpolator1D vx vy itype = .ok s') := by
  induction m generalizing s ys with
  | ret r₀ =>
    rw [run_ret] at h
    simp only [Prod.mk.injEq] at h
    obtain ⟨-, hs, hys⟩ := h
    subst hs; subst hys
    simp
  | eval vy next ih =>
    cases hctor : M.Interpolator1D vx vy itype with
    | error e =>
      rw [run_eval_error _ vy next s s e
        (func_of_constructor_error M vx itype instruments vy s e hctor)] at h
      simp at h
    | ok trial =>
      have hf := func_of_constructor_ok M vx itype instruments vy s trial hctor
      cases hloop : func.loop M trial instruments 0 with
      | error e =>
        rw [hloop] at hf
        rw [run_eval_error _ vy next s trial e hf] at h
        simp at h
      | ok v =>
        rw [hloop] at hf
        rw [run_eval_ok _ vy next s trial v hf] at h
        simp only [Prod.mk.injEq] at h
        obtain ⟨hout, hs, hys⟩ := h
        have hrun : (next v).run (func M vx itype instruments) trial =
            (.ok r, s', ((next v).run (func M vx itype instruments) trial).2.2) := by
          rw [← hout, ← hs]
        obtain ⟨ih1, ih2⟩ := ih v trial _ hrun
        subst hys
        refine ⟨fun h0 => absurd h0 (List.cons_ne_nil _ _), ?_⟩
        intro vy' hlast
        cases hrest : ((next v).run (func M vx itype instruments) trial).2.2 with
        | nil =>
          rw [hrest] at hlast
          simp only [List.getLast?_singleton, Option.some.injEq] at hlast
          subst hlast
          rw [ih1 hrest]; exact hctor
        | cons y rest =>
          rw [hrest] at hlast
          rw [List.getLast?_cons_cons] at hlast
          exact ih2 vy' (by rw [hrest]; exact hlast)

/-- What a run returns, and the trial vectors it calls the objective at, do not
depend on the interpolant the curve holds when the run starts. -/
theorem run_independent {I Interp : Type} (M : Collaborators I Interp)
    (vx : List ℚ) (itype : InterpolatorType) (instruments : List (ℚ × I))
    (m : math.Minimization) (s₁ s₂ : Interp) :
    (m.run (func M vx itype instruments) s₁).1 = (m.run (func M vx itype instruments) s₂).1 ∧
    (m.run (func M vx itype instruments) s₁).2.2 =
      (m.run (func M vx itype instruments) s₂).2.2 := by
  cases m with
  | ret r => simp [run_ret]
  | eval vy next =>
    cases hctor : M.Interpolator1D vx vy itype with
    | error e =>
      rw [run_eval_error _ vy next s₁ s₁ e
          (func_of_constructor_error M vx itype instruments vy s₁ e hctor),
        run_eval_error _ vy next s₂ s₂ e
          (func_of_constructor_error M vx itype instruments vy s₂ e hctor)]
      simp
    | ok trial =>
      have hf₁ := func_of_constructor_ok M vx itype instruments vy s₁ trial hctor
      have hf₂ := func_of_constructor_ok M vx itype instruments vy s₂ trial hctor
      cases hloop : func.loop M trial instruments 0 with
      | error e =>
        rw [hloop] at hf₁ hf₂
        rw [run_eval_error _ vy next s₁ trial e hf₁, run_eval_error _ vy next s₂ trial e hf₂]
        simp
      | ok v =>
        rw [hloop] at hf₁ hf₂
        rw [run_eval_ok _ vy next s₁ trial v hf₁, run_eval_ok _ vy next s₂ trial v hf₂]
        simp

/-! ## C4: the minimizer reports failure -/

/-- C4, refuted as stated: on a never-built curve holding one quote at
maturity 1, with a minimizer that calls the objective once and then reports
failure, `Build` throws `std::runtime_error` with the solver's text and leaves
the curve holding the trial interpolant of that call, not the empty state it
had before. -/
theorem Build_failure_keeps_state_counterexample :
    ((fresh.Add standIn ⟨1, 9 / 10⟩).Build standIn probe .Linear {}).thrown =
      some (.runtime_error "iteration limit reached") ∧
    ((fresh.Add standIn ⟨1, 9 / 10⟩).Build standIn probe .Linear {}).curve.interpolator =
      some ⟨[0, 1], [0, 0], .Linear⟩ ∧
    ((fresh.Add standIn ⟨1, 9 / 10⟩).Build standIn probe .Linear {}).curve.interpolator ≠
      (fresh.Add standIn ⟨1, 9 / 10⟩).interpolator := by
  have h : (fresh.Add standIn ⟨1, 9 / 10⟩).Build standIn probe .Linear {} =
      ⟨some (.runtime_error "iteration limit reached"),
        ⟨some ⟨[0, 1], [0, 0], .Linear⟩, [(1, ⟨1, 9 / 10⟩)]⟩,
        [.minimize [⟨0, 1 / 100, none, none⟩, ⟨0, 1 / 100, none, none⟩] {}, .func [0, 0]]⟩ := by
    rw [YieldCurve.Build, if_neg (by decide)]
    norm_num [fresh, YieldCurve.Add, standIn, assign, grid, probe,
      run_ret, math.Minimization.run, func, func.loop, find?, math.Result.IsGood,
      math.Result.GetError, List.replicate]
  rw [h]
  exact ⟨rfl, rfl, by simp [fresh, YieldCurve.Add]⟩

/-- C4, amended. For a scheme other than piecewise-constant, when the grid is
built and the minimizer's run returns a `Result` that is not good, `Build`
throws `std::runtime_error` carrying the text of the result and keeps the
instruments; the interpolant it leaves is the one the run left: the interpolant
before the call if the objective was never called, and otherwise the trial
interpolant built from the grid and the last trial vector. -/
theorem Build_failure_leaves_last_trial {I Interp : Type} (M : Collaborators I Interp)
    (minimize : List math.Parameter → math.Options → math.Minimization)
    (c : YieldCurve I Interp) (itype : InterpolatorType) (opts : math.Options)
    (vx : List ℚ) (r : math.Result) (s : Interp) (ys : List (List ℚ))
    (hitype : itype ≠ .PiecewiseConstant)
    (hgrid : grid c.instruments [0] = .ok vx)
    (hrun : (minimize (List.replicate vx.length ⟨0, 1 / 100, none, none⟩) opts).run
      (func M vx itype c.instruments) c.interpolator = (.ok r, s, ys))
    (hbad : r.IsGood = false) :
    (c.Build M minimize itype opts).thrown = some (.runtime_error r.GetError) ∧
    r.error_text = some r.GetError ∧
    (c.Build M minimize itype opts).curve.instruments = c.instruments ∧
    (c.Build M minimize itype opts).curve.interpolator = s ∧
    (ys = [] → s = c.interpolator) ∧
    (∀ vy, ys.getLast? = some vy → M.Interpolator1D vx vy itype = .ok s) ∧
    (c.Build M minimize itype opts).calls =
      .minimize (List.replicate vx.length ⟨0, 1 / 100, none, none⟩) opts :: ys.map .func := by
  have hB : c.Build M minimize itype opts =
      ⟨some (.runtime_error r.GetError), { c with interpolator := s },
        .minimize (List.replicate vx.length ⟨0, 1 / 100, none, none⟩) opts :: ys.map .func⟩ := by
    simp only [YieldCurve.Build, hitype, if_false, hgrid, hrun, hbad]
    rfl
  obtain ⟨h1, h2⟩ := run_state M vx itype c.instruments _ _ _ _ _ hrun
  refine ⟨by rw [hB], ?_, by rw [hB], by rw [hB], h1, h2, by rw [hB]⟩
  cases htext : r.error_text with
  | none => simp [math.Result.IsGood, htext] at hbad
  | some t => simp [math.Result.GetError, htext]

/-- C4, amended, on the curve of the counterexample. -/
theorem Build_failure_leaves_last_trial_witness :
    InterpolatorType.Linear ≠ .PiecewiseConstant ∧
    grid (fresh.Add standIn ⟨1, 9 / 10⟩).instruments [0] = .ok [0, 1] ∧
    ((fresh.Add standIn ⟨1, 9 / 10⟩).Build standIn probe .Linear {}).thrown =
      some (.runtime_error "iteration limit reached") ∧
    ((fresh.Add standIn ⟨1, 9 / 10⟩).Build standIn probe .Linear {}).curve.interpolator =
      some ⟨[0, 1], [0, 0], .Linear⟩ ∧
    standIn.Interpolator1D [0, 1] [0, 0] .Linear = .ok (some ⟨[0, 1], [0, 0], .Linear⟩) := by
  have hgrid : grid (fresh.Add standIn ⟨1, 9 / 10⟩).instruments [0] = .ok [0, 1] := by
    norm_num [fresh, YieldCurve.Add, standIn, assign, grid]
  have hrun : (probe (List.replicate [(0 : ℚ), 1].length ⟨0, 1 / 100, none, none⟩) {}).run
      (func standIn [0, 1] .Linear (fresh.Add standIn ⟨1, 9 / 10⟩).instruments)
      (fresh.Add standIn ⟨1, 9 / 10⟩).interpolator =
      (.ok { value := some (81 / 100),
             x := [⟨0, 1 / 100, none, none⟩, ⟨0, 1 / 100, none, none⟩],
             error_text := some "iteration limit reached" },
        some ⟨[0, 1], [0, 0], .Linear⟩, [[0, 0]]) := by
    norm_num [fresh, YieldCurve.Add, standIn, assign, probe, run_ret, math.Minimization.run,
      func, func.loop, find?, List.replicate]
  have h := Build_failure_leaves_last_trial standIn probe (fresh.Add standIn ⟨1, 9 / 10⟩)
    .Linear {} [0, 1] _ _ _ (by decide) hgrid hrun rfl
  exact ⟨by decide, hgrid, h.1, h.2.2.2.1, h.2.2.2.2.2.1 [0, 0] rfl⟩

/-! ## C5: the minimizer succeeds -/

/-- C5. For a scheme other than piecewise-constant, `Build` hands the minimizer
one `Parameter` per grid node, each `(0, 0.01)` without bounds. When the run
returns a good `Result`, `Build` throws `std::logic_error` exactly when the
result's vector and the grid differ in length; when they agree in length it
does not, and the interpolant it installs is the one the constructor builds
from the grid, the returned values in order and the scheme, whatever interpolant
`s` the run left behind (should that constructor throw, its exception leaves
`Build` instead). -/
theorem Build_installs_converged {I Interp : Type} (M : Collaborators I Interp)
    (minimize : List math.Parameter → math.Options → math.Minimization)
    (c : YieldCurve I Interp) (itype : InterpolatorType) (opts : math.Options)
    (vx : List ℚ) (r : math.Result) (s : Interp) (ys : List (List ℚ))
    (hitype : itype ≠ .PiecewiseConstant)
    (hgrid : grid c.instruments [0] = .ok vx)
    (hrun : (minimize (List.replicate vx.length ⟨0, 1 / 100, none, none⟩) opts).run
      (func M vx itype c.instruments) c.interpolator = (.ok r, s, ys))
    (hgood : r.IsGood = true) :
    (c.Build M minimize itype opts).calls =
      .minimize (List.replicate vx.length ⟨0, 1 / 100, none, none⟩) opts :: ys.map .func ∧
    ((∃ what, (c.Build M minimize itype opts).thrown = some (.logic_error what)) ↔
      r.x.length ≠ vx.length) ∧
    (r.x.length = (List.replicate vx.length (⟨0, 1 / 100, none, none⟩ : math.Parameter)).length →
      (∀ what, (c.Build M minimize itype opts).thrown ≠ some (.logic_error what)) ∧
      (∀ built, M.Interpolator1D vx (r.x.map (·.value)) itype = .ok built →
        (c.Build M minimize itype opts).thrown = none ∧
        (c.Build M minimize itype opts).curve = ⟨built, c.instruments⟩) ∧
      (∀ e, M.Interpolator1D vx (r.x.map (·.value)) itype = .error e →
        (c.Build M minimize itype opts).thrown = some (.EvaluationError e) ∧
        (c.Build M minimize itype opts).curve = ⟨s, c.instruments⟩)) := by
  have hB : c.Build M minimize itype opts =
      if vx.length ≠ (r.x.map (·.value)).length then
        ⟨some (.logic_error "YieldCurve::Build: internal error"),
          { c with interpolator := s },
          .minimize (List.replicate vx.length ⟨0, 1 / 100, none, none⟩) opts :: ys.map .func⟩
      else
        match M.Interpolator1D vx (r.x.map (·.value)) itype with
        | .error e =>
          ⟨some (.EvaluationError e), { c with interpolator := s },
            .minimize (List.replicate vx.length ⟨0, 1 / 100, none, none⟩) opts :: ys.map .func⟩
        | .ok built =>
          ⟨none, { c with interpolator := built },
            .minimize (List.replicate vx.length ⟨0, 1 / 100, none, none⟩) opts :: ys.map .func⟩ := by
    simp only [YieldCurve.Build, hitype, if_false, hgrid, hrun, hgood]
    rfl
  by_cases hlen : r.x.length = vx.length
  · have hB' : c.Build M minimize itype opts =
        match M.Interpolator1D vx (r.x.map (·.value)) itype with
        | .error e =>
          ⟨some (.EvaluationError e), { c with interpolator := s },
            .minimize (List.replicate vx.length ⟨0, 1 / 100, none, none⟩) opts :: ys.map .func⟩
        | .ok built =>
          ⟨none, { c with interpolator := built },
            .minimize (List.replicate vx.length ⟨0, 1 / 100, none, none⟩) opts :: ys.map .func⟩ := by
      rw [hB, if_neg (by simp [hlen])]
    have hno : ∀ what, (c.Build M minimize itype opts).thrown ≠ some (.logic_error what) := by
      intro what
      rw [hB']
      cases M.Interpolator1D vx (r.x.map (·.value)) itype <;> simp
    refine ⟨?_, ⟨fun ⟨w, hw⟩ => absurd hw (hno w), fun h => absurd hlen h⟩, fun _ => ⟨hno, ?_, ?_⟩⟩
    · rw [hB']
      cases M.Interpolator1D vx (r.x.map (·.value)) itype <;> rfl
    · intro built hbuilt
      rw [hB', hbuilt]
      exact ⟨rfl, rfl⟩
    · intro e he
      rw [hB', he]
      exact ⟨rfl, rfl⟩
  · have hB' : c.Build M minimize itype opts =
        ⟨some (.logic_error "YieldCurve::Build: internal error"),
          { c with interpolator := s },
          .minimize (List.replicate vx.length ⟨0, 1 / 100, none, none⟩) opts :: ys.map .func⟩ := by
      rw [hB, if_pos (by simpa using fun h => hlen h.symm)]
    refine ⟨by rw [hB'], ⟨fun _ => hlen, fun _ => ⟨_, by rw [hB']⟩⟩, fun h => ?_⟩
    exact absurd (by simpa using h) hlen

/-- C5 on a curve holding one quote, of value 0 at maturity 1, which the
stand-in minimizer accepts at the initial values. -/
theorem Build_installs_converged_witness :
    InterpolatorType.Linear ≠ .PiecewiseConstant ∧
    grid (fresh.Add standIn ⟨1, 0⟩).instruments [0] = .ok [0, 1] ∧
    ((fresh.Add standIn ⟨1, 0⟩).Build standIn probe .Linear {}).calls =
      [.minimize [⟨0, 1 / 100, none, none⟩, ⟨0, 1 / 100, none, none⟩] {}, .func [0, 0]] ∧
    ((fresh.Add standIn ⟨1, 0⟩).Build standIn probe .Linear {}).thrown = none ∧
    ((fresh.Add standIn ⟨1, 0⟩).Build standIn probe .Linear {}).curve =
      ⟨some ⟨[0, 1], [0, 0], .Linear⟩, [(1, ⟨1, 0⟩)]⟩ := by
  have hgrid : grid (fresh.Add standIn ⟨1, 0⟩).instruments [0] = .ok [0, 1] := by
    norm_num [fresh, YieldCurve.Add, standIn, assign, grid]
  have hrun : (probe (List.replicate [(0 : ℚ), 1].length ⟨0, 1 / 100, none, none⟩) {}).run
      (func standIn [0, 1] .Linear (fresh.Add standIn ⟨1, 0⟩).instruments)
      (fresh.Add standIn ⟨1, 0⟩).interpolator =
      (.ok { value := some 0, x := [⟨0, 1 / 100, none, none⟩, ⟨0, 1 / 100, none, none⟩] },
        some ⟨[0, 1], [0, 0], .Linear⟩, [[0, 0]]) := by
    norm_num [fresh, YieldCurve.Add, standIn, assign, probe, run_ret, math.Minimization.run,
      func, func.loop, find?, List.replicate]
  have h := Build_installs_converged standIn probe (fresh.Add standIn ⟨1, 0⟩)
    .Linear {} [0, 1] _ _ _ (by decide) hgrid hrun rfl
  have h3 := (h.2.2 rfl).2.1 (some ⟨[0, 1], [0, 0], .Linear⟩) (by simp [standIn])
  refine ⟨by decide, hgrid, h.1, h3.1, ?_⟩
  rw [h3.2]
  simp [fresh, YieldCurve.Add, standIn, assign]

/-! ## C6: the piecewise-constant scheme -/

/-- C6. `Build(PiecewiseConstant, opts)` is `BuildPiecewiseConstant()`, for
every curve, every options value and every minimizer: it calls neither the
minimizer nor the objective, keeps the instruments, and never throws the
`std::invalid_argument` of the maturity check, whatever the maturities are. -/
theorem Build_PiecewiseConstant {I Interp : Type} (M : Collaborators I Interp)
    (minimize : List math.Parameter → math.Options → math.Minimization)
    (c : YieldCurve I Interp) (opts : math.Options) :
    c.Build M minimize .PiecewiseConstant opts = c.BuildPiecewiseConstant M ∧
    (c.Build M minimize .PiecewiseConstant opts).calls = [] ∧
    (c.Build M minimize .PiecewiseConstant opts).curve.instruments = c.instruments ∧
    (∀ what, (c.Build M minimize .PiecewiseConstant opts).thrown ≠
      some (.invalid_argument what)) := by
  have hB : c.Build M minimize .PiecewiseConstant opts = c.BuildPiecewiseConstant M := by
    simp [YieldCurve.Build]
  rw [hB]
  unfold YieldCurve.BuildPiecewiseConstant
  refine ⟨rfl, ?_, ?_, ?_⟩ <;> split <;> simp

/-! ## C7: the default options -/

theorem length_foldl_Add {I Interp : Type} (M : Collaborators I Interp) (xs : List I)
    (i₀ : Interp) :
    (xs.foldl (YieldCurve.Add M) ⟨i₀, []⟩).instruments.length =
      (xs.map M.GetMaturity).toFinset.card := by
  have h := congrArg List.length (keys_foldl_Add M xs i₀)
  simpa using h

theorem Build₁_eq_Build {I Interp : Type} (M : Collaborators I Interp)
    (minimize : List math.Parameter → math.Options → math.Minimization)
    (c : YieldCurve I Interp) (itype : InterpolatorType) :
    c.Build₁ M minimize itype =
      c.Build M minimize itype
        { eps_abs := some (1 / 100000), eps_rel := some (1 / 100000), limit := some 10000,
          iters := some ((1000 + c.instruments.length * 1000) % 2 ^ 32) } := rfl

theorem Build_calls_head {I Interp : Type} (M : Collaborators I Interp)
    (minimize : List math.Parameter → math.Options → math.Minimization)
    (c : YieldCurve I Interp) (itype : InterpolatorType) (opts : math.Options)
    (hitype : itype ≠ .PiecewiseConstant) (hpos : ∀ p ∈ c.instruments, 0 < p.1) :
    (c.Build M minimize itype opts).calls.head? =
      some (.minimize
        (List.replicate (c.instruments.length + 1) ⟨0, 1 / 100, none, none⟩) opts) := by
  have hlen : ([(0 : ℚ)] ++ c.instruments.map Prod.fst).length = c.instruments.length + 1 := by
    simp
  simp only [YieldCurve.Build, hitype, if_false, grid_ok _ _ hpos, hlen]
  split
  · rfl
  · split_ifs
    · rfl
    · rfl
    · split <;> rfl

theorem crowded_length : crowded.instruments.length = 4294967 := by
  unfold crowded fresh
  rw [length_foldl_Add, List.toFinset_card_of_nodup]
  · rw [List.length_map, List.length_map, List.length_range]
  · rw [List.map_map]
    refine (List.nodup_range _).map ?_
    intro i j hij
    simpa [standIn] using hij

theorem crowded_pos : ∀ p ∈ crowded.instruments, 0 < p.1 := by
  intro p hp
  have hmem : p.1 ∈ crowded.instruments.map Prod.fst := List.mem_map_of_mem _ hp
  unfold crowded fresh at hmem
  rcases (mem_keys_foldl_Add standIn _ _ p.1).1 hmem with h | h
  · simp only [List.map_map, List.mem_map, List.mem_range, Function.comp] at h
    obtain ⟨i, -, hi⟩ := h
    rw [← hi]
    simp only [standIn]
    positivity
  · simp at h

/-- For a curve holding fewer than 4294967 instruments the narrowing does not
bite: `Build(scheme)` is `Build(scheme, opts)` with tolerances `1e-5`, the
default `limit` and the iteration cap `1000 + 1000 * n`, which is in the range
of `unsigned`. -/
theorem Build₁_eq_Build_of_lt {I Interp : Type} (M : Collaborators I Interp)
    (minimize : List math.Parameter → math.Options → math.Minimization)
    (c : YieldCurve I Interp) (itype : InterpolatorType)
    (hlt : c.instruments.length < 4294967) :
    c.Build₁ M minimize itype =
      c.Build M minimize itype
        { eps_abs := some (1 / 100000), eps_rel := some (1 / 100000), limit := some 10000,
          iters := some (1000 + 1000 * c.instruments.length) } ∧
    math.Options.InRange
      { eps_abs := some (1 / 100000), eps_rel := some (1 / 100000), limit := some 10000,
        iters := some (1000 + 1000 * c.instruments.length) } := by
  constructor
  · rw [Build₁_eq_Build, Nat.mul_comm c.instruments.length 1000, Nat.mod_eq_of_lt (by omega)]
  · simp only [math.Options.InRange, Option.getD_some]
    omega

/-- C7, at the failing input: on a curve holding 4294967 instruments (filled by
`Add` with the maturities 1, ..., 4294967) `Build(Linear)` hands the minimizer
the iteration cap `704`. That is not `1000 + 1000 * 4294967 = 4294968000`, the
cap the default options are meant to carry, which is outside the range of the
`unsigned` field `iters`. -/
theorem Build_default_options_overflow :
    crowded.instruments.length = 4294967 ∧
    (crowded.Build₁ standIn probe .Linear).calls.head? =
      some (.minimize (List.replicate 4294968 ⟨0, 1 / 100, none, none⟩)
        { eps_abs := some (1 / 100000), eps_rel := some (1 / 100000), limit := some 10000,
          iters := some 704 }) ∧
    (704 : ℕ) ≠ 1000 + 1000 * crowded.instruments.length ∧
    ¬ math.Options.InRange
      { eps_abs := some (1 / 100000), eps_rel := some (1 / 100000), limit := some 10000,
        iters := some (1000 + 1000 * crowded.instruments.length) } := by
  have hcap : (1000 + 4294967 * 1000) % 2 ^ 32 = 704 := by norm_num
  have hsucc : 4294967 + 1 = 4294968 := by norm_num
  refine ⟨crowded_length, ?_, ?_, ?_⟩
  · rw [Build₁_eq_Build, Build_calls_head standIn probe crowded .Linear _ (by decide) crowded_pos,
      crowded_length, hcap, hsucc]
  · rw [crowded_length]
    norm_num
  · rw [crowded_length]
    simp only [math.Options.InRange, Option.getD_some]
    norm_num

/-! ## C8: `Build` does not read the interpolant it replaces -/

theorem BuildPiecewiseConstant_prior {I Interp : Type} (M : Collaborators I Interp)
    (c : YieldCurve I Interp) (i' : Interp) :
    (YieldCurve.mk i' c.instruments).BuildPiecewiseConstant M = c.BuildPiecewiseConstant M := by
  unfold YieldCurve.BuildPiecewiseConstant
  rfl

theorem Build_instruments {I Interp : Type} (M : Collaborators I Interp)
    (minimize : List math.Parameter → math.Options → math.Minimization)
    (c : YieldCurve I Interp) (itype : InterpolatorType) (opts : math.Options) :
    (c.Build M minimize itype opts).curve.instruments = c.instruments := by
  by_cases hitype : itype = .PiecewiseConstant
  · simp only [YieldCurve.Build, hitype, if_true]
    unfold YieldCurve.BuildPiecewiseConstant
    split <;> rfl
  · cases hgrid : grid c.instruments [0] with
    | error e => simp only [YieldCurve.Build, hitype, if_false, hgrid]
    | ok vx =>
      rcases h₁ : (minimize (List.replicate vx.length ⟨0, 1 / 100, none, none⟩) opts).run
        (func M vx itype c.instruments) c.interpolator with ⟨o, s₁, ys⟩
      simp only [YieldCurve.Build, hitype, if_false, hgrid, h₁]
      cases o with
      | error e => rfl
      | ok r =>
        simp only
        split_ifs
        · rfl
        · rfl
        · cases M.Interpolator1D vx (r.x.map (·.value)) itype <;> rfl

theorem Build_prior {I Interp : Type} (M : Collaborators I Interp)
    (minimize : List math.Parameter → math.Options → math.Minimization)
    (c : YieldCurve I Interp) (itype : InterpolatorType) (opts : math.Options) (i' : Interp) :
    ((YieldCurve.mk i' c.instruments).Build M minimize itype opts).thrown =
      (c.Build M minimize itype opts).thrown ∧
    ((YieldCurve.mk i' c.instruments).Build M minimize itype opts).calls =
      (c.Build M minimize itype opts).calls ∧
    ((c.Build M minimize itype opts).thrown = none →
      ((YieldCurve.mk i' c.instruments).Build M minimize itype opts).curve =
        (c.Build M minimize itype opts).curve) := by
  by_cases hitype : itype = .PiecewiseConstant
  · have h : (YieldCurve.mk i' c.instruments).Build M minimize itype opts =
        c.Build M minimize itype opts := by
      simp only [YieldCurve.Build, hitype, if_true]
      exact BuildPiecewiseConstant_prior M c i'
    rw [h]
    exact ⟨rfl, rfl, fun _ => rfl⟩
  · cases hgrid : grid c.instruments [0] with
    | error e =>
      simp [YieldCurve.Build, hitype, hgrid]
    | ok vx =>
      obtain ⟨hout, hys⟩ := run_independent M vx itype c.instruments
        (minimize (List.replicate vx.length ⟨0, 1 / 100, none, none⟩) opts) i' c.interpolator
      rcases h₁ : (minimize (List.replicate vx.length ⟨0, 1 / 100, none, none⟩) opts).run
        (func M vx itype c.instruments) c.interpolator with ⟨o, s₁, ys⟩
      rcases h₂ : (minimize (List.replicate vx.length ⟨0, 1 / 100, none, none⟩) opts).run
        (func M vx itype c.instruments) i' with ⟨o₂, s₂, ys₂⟩
      rw [h₁, h₂] at hout hys
      simp only at hout hys
      subst hout; subst hys
      simp only [YieldCurve.Build, hitype, if_false, hgrid, h₁, h₂]
      cases o₂ with
      | error e => exact ⟨rfl, rfl, fun h => by simp at h⟩
      | ok r =>
        simp only
        split_ifs with hgood hlen
        · exact ⟨rfl, rfl, fun h => by simp at h⟩
        · exact ⟨rfl, rfl, fun h => by simp at h⟩
        · cases M.Interpolator1D vx (r.x.map (·.value)) itype with
          | error e => exact ⟨rfl, rfl, fun h => by simp at h⟩
          | ok built => exact ⟨rfl, rfl, fun _ => rfl⟩

/-- C8. `Build` keeps the instruments, and what it throws or returns and the
calls it makes do not depend on the interpolant the curve held before the call.
When `Build` returns, the whole outcome is the same from any earlier
interpolant, so it is a function of instruments, scheme and options (and of the
minimizer); in particular a second `Build` with the same scheme and options, on
the curve the first one left, installs the same interpolant again. -/
theorem Build_idempotent {I Interp : Type} (M : Collaborators I Interp)
    (minimize : List math.Parameter → math.Options → math.Minimization)
    (c : YieldCurve I Interp) (itype : InterpolatorType) (opts : math.Options) :
    (c.Build M minimize itype opts).curve.instruments = c.instruments ∧
    (∀ i' : Interp,
      ((YieldCurve.mk i' c.instruments).Build M minimize itype opts).thrown =
        (c.Build M minimize itype opts).thrown ∧
      ((YieldCurve.mk i' c.instruments).Build M minimize itype opts).calls =
        (c.Build M minimize itype opts).calls) ∧
    ((c.Build M minimize itype opts).thrown = none →
      (∀ i' : Interp, (YieldCurve.mk i' c.instruments).Build M minimize itype opts =
        c.Build M minimize itype opts) ∧
      (c.Build M minimize itype opts).curve.Build M minimize itype opts =
        c.Build M minimize itype opts) := by
  have hins := Build_instruments M minimize c itype opts
  refine ⟨hins, fun i' => ⟨(Build_prior M minimize c itype opts i').1,
    (Build_prior M minimize c itype opts i').2.1⟩, fun hok => ?_⟩
  have hall : ∀ i' : Interp, (YieldCurve.mk i' c.instruments).Build M minimize itype opts =
      c.Build M minimize itype opts := by
    intro i'
    obtain ⟨h1, h2, h3⟩ := Build_prior M minimize c itype opts i'
    have h3' := h3 hok
    revert h1 h2 h3'
    generalize (YieldCurve.mk i' c.instruments).Build M minimize itype opts = a
    generalize c.Build M minimize itype opts = b
    intro h1 h2 h3
    cases a; cases b
    simp only at h1 h2 h3
    rw [h1, h2, h3]
  refine ⟨hall, ?_⟩
  have hc : (c.Build M minimize itype opts).curve =
      ⟨(c.Build M minimize itype opts).curve.interpolator, c.instruments⟩ := by
    rw [← hins]
  rw [hc]
  exact hall _

/-- C8 on the curve holding one quote of value 0 at maturity 1, built twice, and
built from another earlier interpolant. -/
theorem Build_idempotent_witness :
    ((fresh.Add standIn ⟨1, 0⟩).Build standIn probe .Linear {}).thrown = none ∧
    ((fresh.Add standIn ⟨1, 0⟩).Build standIn probe .Linear {}).curve =
      ⟨some ⟨[0, 1], [0, 0], .Linear⟩, [(1, ⟨1, 0⟩)]⟩ ∧
    ((fresh.Add standIn ⟨1, 0⟩).Build standIn probe .Linear {}).curve.Build standIn probe
      .Linear {} = (fresh.Add standIn ⟨1, 0⟩).Build standIn probe .Linear {} ∧
    (YieldCurve.mk (some ⟨[0, 7], [3, 4], .Akima⟩)
      (fresh.Add standIn ⟨1, 0⟩).instruments).Build standIn probe .Linear {} =
      (fresh.Add standIn ⟨1, 0⟩).Build standIn probe .Linear {} := by
  have h : (fresh.Add standIn ⟨1, 0⟩).Build standIn probe .Linear {} =
      ⟨none, ⟨some ⟨[0, 1], [0, 0], .Linear⟩, [(1, ⟨1, 0⟩)]⟩,
        [.minimize [⟨0, 1 / 100, none, none⟩, ⟨0, 1 / 100, none, none⟩] {}, .func [0, 0]]⟩ := by
    rw [YieldCurve.Build, if_neg (by decide)]
    norm_num [fresh, YieldCurve.Add, standIn, assign, grid, probe,
      run_ret, math.Minimization.run, func, func.loop, find?, math.Result.IsGood,
      math.Result.GetError, List.replicate]
  have hok : ((fresh.Add standIn ⟨1, 0⟩).Build standIn probe .Linear {}).thrown = none := by
    rw [h]
  have hthm := (Build_idempotent standIn probe (fresh.Add standIn ⟨1, 0⟩) .Linear {}).2.2 hok
  exact ⟨hok, by rw [h], hthm.2, hthm.1 _⟩

/-! ## C9: the objective -/

theorem func_loop_sum {I Interp : Type} (M : Collaborators I Interp) (trial : Interp)
    (e : I → ℚ) (instruments : List (ℚ × I)) (result : ℚ)
    (heval : ∀ p ∈ instruments, M.Eval p.2 trial = .ok (e p.2)) :
    func.loop M trial instruments result =
      .ok (result + (instruments.map fun p => (M.Value p.2 - e p.2) ^ 2).sum) := by
  induction instruments generalizing result with
  | nil => simp [func.loop]
  | cons p rest ih =>
    obtain ⟨t, instr⟩ := p
    have h0 : M.Eval instr trial = .ok (e instr) := heval (t, instr) (List.mem_cons_self _ _)
    have hrest : ∀ p ∈ rest, M.Eval p.2 trial = .ok (e p.2) := fun p hp =>
      heval p (List.mem_cons_of_mem _ hp)
    simp only [func.loop, h0, ih _ hrest, List.map_cons, List.sum_cons]
    rw [add_assoc]

theorem sum_sq_nonneg {I : Type} (g : I → ℚ) (l : List (ℚ × I)) :
    0 ≤ (l.map fun p => g p.2 ^ 2).sum := by
  induction l with
  | nil => simp
  | cons p rest ih =>
    simp only [List.map_cons, List.sum_cons]
    exact add_nonneg (sq_nonneg _) ih

theorem sum_sq_eq_zero_iff {I : Type} (g : I → ℚ) (l : List (ℚ × I)) :
    (l.map fun p => g p.2 ^ 2).sum = 0 ↔ ∀ p ∈ l, g p.2 = 0 := by
  induction l with
  | nil => simp
  | cons p rest ih =>
    simp only [List.map_cons, List.sum_cons, List.mem_cons, forall_eq_or_imp]
    rw [← ih]
    constructor
    · intro h
      have h1 : g p.2 ^ 2 = 0 := by
        have := sum_sq_nonneg g rest
        have := sq_nonneg (g p.2)
        linarith
      have h2 : (rest.map fun p => g p.2 ^ 2).sum = 0 := by
        rw [h1] at h; simpa using h
      exact ⟨pow_eq_zero_iff (two_ne_zero) |>.1 h1, h2⟩
    · rintro ⟨h1, h2⟩
      rw [h1, h2]; norm_num

/-- C9, refuted as stated: evaluating the objective at `[0, 0]` on a
never-built curve holding one quote at maturity 1 returns `(9/10 - 0)^2` and
leaves the curve holding the trial interpolant instead of its empty state. -/
theorem func_keeps_state_counterexample :
    func standIn [0, 1] .Linear (fresh.Add standIn ⟨1, 9 / 10⟩).instruments [0, 0]
      (fresh.Add standIn ⟨1, 9 / 10⟩).interpolator =
      (.ok (81 / 100), some ⟨[0, 1], [0, 0], .Linear⟩) ∧
    (func standIn [0, 1] .Linear (fresh.Add standIn ⟨1, 9 / 10⟩).instruments [0, 0]
      (fresh.Add standIn ⟨1, 9 / 10⟩).interpolator).2 ≠
      (fresh.Add standIn ⟨1, 9 / 10⟩).interpolator := by
  have h : func standIn [0, 1] .Linear (fresh.Add standIn ⟨1, 9 / 10⟩).instruments [0, 0]
      (fresh.Add standIn ⟨1, 9 / 10⟩).interpolator =
      (.ok (81 / 100), some ⟨[0, 1], [0, 0], .Linear⟩) := by
    norm_num [fresh, YieldCurve.Add, standIn, assign, func, func.loop, find?]
  rw [h]
  exact ⟨rfl, by simp [fresh, YieldCurve.Add]⟩

/-- C9, amended. What the objective returns or throws is a function of the
trial y-vector alone (given grid, scheme and instruments), not of the
interpolant the curve holds. When the trial interpolant is built from
(grid, trial y-vector, scheme) and every instrument evaluates on it, the
objective returns the sum over the instruments of `(Value() - Eval(trial))^2`
and leaves the trial interpolant as the curve's interpolant. That sum is `≥ 0`,
is `0` exactly when every instrument's model-implied value equals its quoted
value, and is `0` for a curve without instruments. -/
theorem func_sum_of_squares {I Interp : Type} (M : Collaborators I Interp)
    (vx : List ℚ) (itype : InterpolatorType) (instruments : List (ℚ × I)) (vy : List ℚ)
    (self trial : Interp) (e : I → ℚ)
    (hctor : M.Interpolator1D vx vy itype = .ok trial)
    (heval : ∀ p ∈ instruments, M.Eval p.2 trial = .ok (e p.2)) :
    func M vx itype instruments vy self =
      (.ok (instruments.map fun p => (M.Value p.2 - e p.2) ^ 2).sum, trial) ∧
    (∀ self' : Interp, (func M vx itype instruments vy self').1 =
      (func M vx itype instruments vy self).1) ∧
    0 ≤ (instruments.map fun p => (M.Value p.2 - e p.2) ^ 2).sum ∧
    ((instruments.map fun p => (M.Value p.2 - e p.2) ^ 2).sum = 0 ↔
      ∀ p ∈ instruments, e p.2 = M.Value p.2) ∧
    func M vx itype [] vy self = (.ok 0, trial) := by
  refine ⟨?_, ?_, sum_sq_nonneg (fun i => M.Value i - e i) instruments, ?_, ?_⟩
  · rw [func_of_constructor_ok M vx itype instruments vy self trial hctor,
      func_loop_sum M trial e instruments 0 heval, zero_add]
  · intro self'
    rw [func_of_constructor_ok M vx itype instruments vy self trial hctor,
      func_of_constructor_ok M vx itype instruments vy self' trial hctor]
  · rw [sum_sq_eq_zero_iff (fun i => M.Value i - e i) instruments]
    constructor
    · intro h p hp
      have := h p hp
      linarith
    · intro h p hp
      rw [h p hp]; ring
  · rw [func_of_constructor_ok M vx itype [] vy self trial hctor]
    rfl

/-- C9, amended, on the curve of the counterexample, with two quotes. -/
theorem func_sum_of_squares_witness :
    standIn.Interpolator1D [0, 1, 2] [0, 1 / 2, 1] .Linear =
      .ok (some ⟨[0, 1, 2], [0, 1 / 2, 1], .Linear⟩) ∧
    func standIn [0, 1, 2] .Linear [(1, ⟨1, 9 / 10⟩), (2, ⟨2, 1⟩)] [0, 1 / 2, 1] none =
      (.ok ((([(1, ⟨1, 9 / 10⟩), (2, ⟨2, 1⟩)] : List (ℚ × Quote)).map fun p =>
        (standIn.Value p.2 - p.2.maturity / 2) ^ 2).sum),
        some ⟨[0, 1, 2], [0, 1 / 2, 1], .Linear⟩) ∧
    func standIn [0, 1, 2] .Linear [(1, ⟨1, 9 / 10⟩), (2, ⟨2, 1⟩)] [0, 1 / 2, 1] none =
      (.ok (4 / 25), some ⟨[0, 1, 2], [0, 1 / 2, 1], .Linear⟩) := by
  have hctor : standIn.Interpolator1D [0, 1, 2] [0, 1 / 2, 1] .Linear =
      .ok (some ⟨[0, 1, 2], [0, 1 / 2, 1], .Linear⟩) := by
    simp [standIn]
  have heval : ∀ p ∈ ([(1, ⟨1, 9 / 10⟩), (2, ⟨2, 1⟩)] : List (ℚ × Quote)),
      standIn.Eval p.2 (some ⟨[0, 1, 2], [0, 1 / 2, 1], .Linear⟩) =
        .ok (p.2.maturity / 2) := by
    intro p hp
    simp only [List.mem_cons, List.mem_singleton, List.not_mem_nil, or_false] at hp
    rcases hp with rfl | rfl <;> norm_num [standIn, find?]
  have h := (func_sum_of_squares standIn [0, 1, 2] .Linear
    ([(1, ⟨1, 9 / 10⟩), (2, ⟨2, 1⟩)] : List (ℚ × Quote)) [0, 1 / 2, 1] none _
    (fun q : Quote => q.maturity / 2) hctor heval).1
  refine ⟨hctor, h, ?_⟩
  rw [h]
  norm_num [standIn]

/-! ## C10: `linspace` -/

theorem linspace_loop_getElem? (n : ℕ) (min max : ℚ) (k s : ℕ) (v : List (Option ℚ)) (i : ℕ) :
    ((List.range' s k).foldl (math.linspace.body n min max) v)[i]? =
      if s ≤ i ∧ i < s + k ∧ i < v.length then
        some (some (min + (max - min) * (i : ℚ) / ((n - 1 : ℕ) : ℚ)))
      else v[i]? := by
  induction k generalizing s v with
  | zero =>
    have : ¬ (s ≤ i ∧ i < s + 0 ∧ i < v.length) := by omega
    rw [if_neg this]
    rfl
  | succ k ih =>
    rw [List.range'_succ, List.foldl_cons, ih]
    simp only [math.linspace.body, List.length_set, List.getElem?_set]
    by_cases hi : s = i
    · subst hi
      have h1 : ¬ (s + 1 ≤ s ∧ s < s + 1 + k ∧ s < v.length) := by omega
      rw [if_neg h1, if_pos rfl]
      by_cases hlen : s < v.length
      · have h2 : s ≤ s ∧ s < s + (k + 1) ∧ s < v.length := by omega
        rw [if_pos hlen, if_pos h2]
      · have h2 : ¬ (s ≤ s ∧ s < s + (k + 1) ∧ s < v.length) := by omega
        rw [if_neg hlen, if_neg h2, List.getElem?_eq_none (by omega)]
    · rw [if_neg hi]
      by_cases hc : s + 1 ≤ i ∧ i < s + 1 + k ∧ i < v.length
      · have h2 : s ≤ i ∧ i < s + (k + 1) ∧ i < v.length := by omega
        rw [if_pos hc, if_pos h2]
      · have h2 : ¬ (s ≤ i ∧ i < s + (k + 1) ∧ i < v.length) := by omega
        rw [if_neg hc, if_neg h2]

theorem linspace_loop_length (n : ℕ) (min max : ℚ) (k s : ℕ) (v : List (Option ℚ)) :
    ((List.range' s k).foldl (math.linspace.body n min max) v).length = v.length := by
  induction k generalizing s v with
  | zero => rfl
  | succ k ih =>
    rw [List.range'_succ, List.foldl_cons, ih]
    simp [math.linspace.body]

theorem linspace_of_two_le (m : ℕ) (min max : ℚ) :
    math.linspace (m + 2) min max =
      .ok ((List.range (m + 2)).map fun i : ℕ =>
        some (min + (max - min) * (i : ℚ) / (((m + 2 : ℕ) : ℚ) - 1))) := by
  have hcast : (((m + 2 - 1 : ℕ)) : ℚ) = ((m + 2 : ℕ) : ℚ) - 1 := by
    push_cast [Nat.cast_sub (show 1 ≤ m + 2 by omega)]
    ring
  have hne : (((m + 2 : ℕ) : ℚ) - 1) ≠ 0 := by
    have : (0 : ℚ) ≤ (m : ℚ) := Nat.cast_nonneg m
    push_cast
    linarith
  unfold math.linspace
  simp only
  congr 1
  apply List.ext_getElem?
  intro i
  rw [List.getElem?_set, linspace_loop_getElem?, List.getElem?_set, List.getElem?_replicate,
    List.getElem?_map, linspace_loop_length]
  simp only [List.length_set, List.length_replicate, hcast]
  by_cases hi : i < m + 2
  · rw [List.getElem?_range hi]
    simp only [Option.map_some']
    by_cases hlast : m + 2 - 1 = i
    · have hlt : m + 2 - 1 < m + 2 := by omega
      rw [if_pos hlast, if_pos hlt]
      have hi' : (i : ℚ) = ((m + 2 : ℕ) : ℚ) - 1 := by rw [← hlast, hcast]
      rw [hi', mul_div_assoc, div_self hne]
      congr 2; ring
    · rw [if_neg hlast]
      by_cases hmid : 1 ≤ i ∧ i < 1 + (m + 2 - 1 - 1) ∧ i < m + 2
      · rw [if_pos hmid]
      · have h0 : i = 0 := by omega
        subst h0
        rw [if_neg hmid, if_pos rfl, if_pos (by omega)]
        congr 2
        simp
  · have h1 : ¬ (m + 2 - 1 = i) := by omega
    have h2 : ¬ (1 ≤ i ∧ i < 1 + (m + 2 - 1 - 1) ∧ i < m + 2) := by omega
    have h3 : ¬ (0 = i) := by omega
    rw [if_neg h1, if_neg h2, if_neg h3, if_neg hi, List.getElem?_eq_none (by simpa using hi)]
    rfl

/-- C10. Over exact arithmetic, `linspace(0, min, max)` is empty;
`linspace(1, min, max)` is `[min]` when `min = max` and throws
`std::invalid_argument` otherwise; and for `n ≥ 2`, `linspace(n, min, max)`
returns a vector `w` without `NAN` entries, of length `n`, whose entry `i` is
`min + (max - min) * i / (n - 1)`: it starts at `min`, ends at `max`, has the
constant step `(max - min) / (n - 1)`, and is strictly increasing when
`min < max`. -/
theorem linspace_exact (n : ℕ) (min max : ℚ) :
    math.linspace 0 min max = .ok [] ∧
    math.linspace 1 min min = .ok [some min] ∧
    (min ≠ max →
      math.linspace 1 min max = .error (.invalid_argument "linspace: n=1 and min!=max")) ∧
    (2 ≤ n → ∃ w : List ℚ,
      math.linspace n min max = .ok (w.map some) ∧
      w.length = n ∧
      (∀ i : ℕ, i < n → w[i]? = some (min + (max - min) * (i : ℚ) / ((n : ℚ) - 1))) ∧
      w.head? = some min ∧
      w.getLast? = some max ∧
      (∀ i : ℕ, i + 1 < n → ∃ a b : ℚ, w[i]? = some a ∧ w[i + 1]? = some b ∧
        b - a = (max - min) / ((n : ℚ) - 1)) ∧
      (min < max → w.Sorted (· < ·))) := by
  refine ⟨rfl, by simp [math.linspace], fun h => by simp [math.linspace, h], fun hn => ?_⟩
  obtain ⟨m, rfl⟩ : ∃ m, n = m + 2 := ⟨n - 2, by omega⟩
  have hpos : (0 : ℚ) < ((m + 2 : ℕ) : ℚ) - 1 := by
    have : (0 : ℚ) ≤ (m : ℚ) := Nat.cast_nonneg m
    push_cast
    linarith
  have hget : ∀ i : ℕ, i < m + 2 →
      ((List.range (m + 2)).map fun i : ℕ =>
        min + (max - min) * (i : ℚ) / (((m + 2 : ℕ) : ℚ) - 1))[i]? =
        some (min + (max - min) * (i : ℚ) / (((m + 2 : ℕ) : ℚ) - 1)) := by
    intro i hi
    rw [List.getElem?_map, List.getElem?_range hi]
    rfl
  refine ⟨(List.range (m + 2)).map fun i : ℕ =>
    min + (max - min) * (i : ℚ) / (((m + 2 : ℕ) : ℚ) - 1), ?_, by simp, hget, ?_, ?_, ?_, ?_⟩
  · rw [linspace_of_two_le, List.map_map]
    rfl
  · rw [List.head?_eq_getElem?, hget 0 (by omega)]
    simp
  · rw [List.getLast?_eq_getElem?, List.length_map, List.length_range, hget _ (by omega)]
    have hc : (((m + 2 - 1 : ℕ)) : ℚ) = ((m + 2 : ℕ) : ℚ) - 1 := by
      push_cast [Nat.cast_sub (show 1 ≤ m + 2 by omega)]
      ring
    rw [hc, mul_div_assoc, div_self (ne_of_gt hpos)]
    congr 1; ring
  · intro i hi
    refine ⟨_, _, hget i (by omega), hget (i + 1) hi, ?_⟩
    push_cast
    ring
  · intro hlt
    refine List.Pairwise.map _ ?_ (List.pairwise_lt_range (m + 2))
    intro i j hij
    have hij' : (i : ℚ) < (j : ℚ) := Nat.cast_lt.2 hij
    have hd : (0 : ℚ) < max - min := sub_pos.2 hlt
    have : (max - min) * (i : ℚ) / (((m + 2 : ℕ) : ℚ) - 1) <
        (max - min) * (j : ℚ) / (((m + 2 : ℕ) : ℚ) - 1) :=
      div_lt_div_of_pos_right (mul_lt_mul_of_pos_left hij' hd) hpos
    linarith

/-- C10 at `linspace(5, 0, 1)`, which is `[0, 1/4, 1/2, 3/4, 1]`, and at
`linspace(1, 0, 1)`, which throws. -/
theorem linspace_exact_witness :
    ((0 : ℚ) ≠ 1 ∧
      math.linspace 1 0 1 = .error (.invalid_argument "linspace: n=1 and min!=max")) ∧
    (2 ≤ 5 ∧ ∃ w : List ℚ,
      math.linspace 5 0 1 = .ok (w.map some) ∧
      w.length = 5 ∧
      (∀ i : ℕ, i < 5 → w[i]? = some (0 + (1 - 0) * (i : ℚ) / (((5 : ℕ) : ℚ) - 1))) ∧
      w.head? = some 0 ∧
      w.getLast? = some 1 ∧
      (∀ i : ℕ, i + 1 < 5 → ∃ a b : ℚ, w[i]? = some a ∧ w[i + 1]? = some b ∧
        b - a = (1 - 0) / (((5 : ℕ) : ℚ) - 1)) ∧
      ((0 : ℚ) < 1 → w.Sorted (· < ·))) ∧
    math.linspace 5 0 1 = .ok [some 0, some (1 / 4), some (1 / 2), some (3 / 4), some 1] := by
  refine ⟨⟨by norm_num, (linspace_exact 5 0 1).2.2.1 (by norm_num)⟩,
    ⟨by norm_num, (linspace_exact 5 0 1).2.2.2 (by norm_num)⟩, ?_⟩
  norm_num [math.linspace, math.linspace.body, List.range', List.replicate, List.set]

end CurvesConstruction
